import Mathlib

/-!
Shallow embedding of `src/window_open_options.rs` (baseview): the window-open
options data model, its builder protocol, and the Mac OS style-flag bit-set.
The Rust `u64` bit-set is modelled as a `Nat`; a value is in range when it is
`< 2 ^ 64`, and Rust `!x` on `u64` is `(2 ^ 64 - 1) ^^^ x`.
-/

namespace Baseview

/-- Modelled from the spec: the external `Size` value type (a width/height pair
of `f64`) lives in the crate root, outside the given source file; the spec
describes it as `Size{width: f64, height: f64}` with a `new` constructor. -/
structure Size where
  width : Float
  height : Float

/-- Modelled from the spec: `Size::new(width, height)`. -/
def Size.new (width height : Float) : Size :=
  { width := width, height := height }

/-- The dpi scaling policy of the window (`WindowScalePolicy` in the source). -/
inductive WindowScalePolicy where
  | SystemScaleFactor
  | ScaleFactor (factor : Float)

/-- `MacOSWindowOptions`: a transparent wrapper around a `u64` style bit-set. -/
structure MacOSWindowOptions where
  value : Nat
deriving DecidableEq

/-- Rust bitwise complement `!x` on a `u64` operand. -/
def u64Not (x : Nat) : Nat :=
  (2 ^ 64 - 1) ^^^ x

namespace MacOSWindowOptions

/-- `fn raw_value(&self) -> u64`. -/
def raw_value (o : MacOSWindowOptions) : Nat :=
  o.value

/-- `borderless`: removes all default or currently present style flags. -/
def borderless (o : MacOSWindowOptions) : MacOSWindowOptions :=
  { o with value := 0 }

/-- `closable`: window has a close button (bit 0). -/
def closable (o : MacOSWindowOptions) (value : Bool) : MacOSWindowOptions :=
  if value then { o with value := o.value ||| (1 <<< 0) }
  else { o with value := o.value &&& u64Not (1 <<< 0) }

/-- `titled`: set the window title (bit 1). -/
def titled (o : MacOSWindowOptions) (value : Bool) : MacOSWindowOptions :=
  if value then { o with value := o.value ||| (1 <<< 1) }
  else { o with value := o.value &&& u64Not (1 <<< 1) }

/-- `miniaturizable`: window can be minimized (bit 2). -/
def miniaturizable (o : MacOSWindowOptions) (value : Bool) : MacOSWindowOptions :=
  if value then { o with value := o.value ||| (1 <<< 2) }
  else { o with value := o.value &&& u64Not (1 <<< 2) }

/-- `resizable`: window can be resized (bit 3). -/
def resizable (o : MacOSWindowOptions) (value : Bool) : MacOSWindowOptions :=
  if value then { o with value := o.value ||| (1 <<< 3) }
  else { o with value := o.value &&& u64Not (1 <<< 3) }

/-- `textured`: window can be dragged by its background (bit 8). -/
def textured (o : MacOSWindowOptions) (value : Bool) : MacOSWindowOptions :=
  if value then { o with value := o.value ||| (1 <<< 8) }
  else { o with value := o.value &&& u64Not (1 <<< 8) }

/-- `unified_titlebar`: the window paints into its title area (bit 12). -/
def unified_titlebar (o : MacOSWindowOptions) (value : Bool) : MacOSWindowOptions :=
  if value then { o with value := o.value ||| (1 <<< 12) }
  else { o with value := o.value &&& u64Not (1 <<< 12) }

/-- `full_screen`: create a full screen window (bit 14). -/
def full_screen (o : MacOSWindowOptions) (value : Bool) : MacOSWindowOptions :=
  if value then { o with value := o.value ||| (1 <<< 14) }
  else { o with value := o.value &&& u64Not (1 <<< 14) }

/-- `full_size` (bit 15). -/
def full_size (o : MacOSWindowOptions) (value : Bool) : MacOSWindowOptions :=
  if value then { o with value := o.value ||| (1 <<< 15) }
  else { o with value := o.value &&& u64Not (1 <<< 15) }

/-- `impl Default for MacOSWindowOptions`: start from `u64`'s default `0`, then
`titled(true).closable(true).miniaturizable(true)`. -/
def default : MacOSWindowOptions :=
  ((({ value := 0 } : MacOSWindowOptions).titled true).closable true).miniaturizable true

end MacOSWindowOptions

/-- The options for opening a new window. The `gl_config` field exists only
under the `opengl` cargo feature and is outside every claim; it is omitted. -/
structure WindowOpenOptions where
  title : String
  size : Size
  scale : WindowScalePolicy
  mac_os_options : Option MacOSWindowOptions

namespace WindowOpenOptions

/-- `impl Default for WindowOpenOptions`. -/
def default : WindowOpenOptions :=
  { title := "Baseview window"
    size := Size.new 800.0 600.0
    scale := WindowScalePolicy.SystemScaleFactor
    mac_os_options := none }

/-- `with_title`: the `D : Display` argument is modelled by the string it
displays as (`title.to_string()`). -/
def with_title (o : WindowOpenOptions) (title : String) : WindowOpenOptions :=
  { o with title := title }

/-- `with_size`. -/
def with_size (o : WindowOpenOptions) (size : Size) : WindowOpenOptions :=
  { o with size := size }

/-- `with_scale_policy`. -/
def with_scale_policy (o : WindowOpenOptions) (policy : WindowScalePolicy) : WindowOpenOptions :=
  { o with scale := policy }

/-- `with_mac_os_options`: configure mac-os specific window flags. -/
def with_mac_os_options (o : WindowOpenOptions)
    (f : MacOSWindowOptions → MacOSWindowOptions) : WindowOpenOptions :=
  { o with mac_os_options := some (f (o.mac_os_options.getD MacOSWindowOptions.default)) }

end WindowOpenOptions

/-- Enumeration of the eight boolean toggle methods of `MacOSWindowOptions`,
used to quantify over them in the algebraic claims. -/
inductive Toggle where
  | closable
  | titled
  | miniaturizable
  | resizable
  | textured
  | unified_titlebar
  | full_screen
  | full_size
deriving DecidableEq

/-- Dispatch a `Toggle` to the corresponding source method. -/
def Toggle.apply (t : Toggle) (o : MacOSWindowOptions) (b : Bool) : MacOSWindowOptions :=
  match t with
  | .closable => o.closable b
  | .titled => o.titled b
  | .miniaturizable => o.miniaturizable b
  | .resizable => o.resizable b
  | .textured => o.textured b
  | .unified_titlebar => o.unified_titlebar b
  | .full_screen => o.full_screen b
  | .full_size => o.full_size b

/-- The bit position each toggle method operates on. -/
def Toggle.bit (t : Toggle) : Nat :=
  match t with
  | .closable => 0
  | .titled => 1
  | .miniaturizable => 2
  | .resizable => 3
  | .textured => 8
  | .unified_titlebar => 12
  | .full_screen => 14
  | .full_size => 15

/-- The common body of all eight toggle methods: set or clear bit `k`. -/
def toggleBit (v k : Nat) (b : Bool) : Nat :=
  if b then v ||| (1 <<< k) else v &&& u64Not (1 <<< k)

/-- Well-formedness of a `WindowOpenOptions`: a stored style bit-set fits in a
`u64`. -/
def WFOptions (o : WindowOpenOptions) : Prop :=
  ∀ m : MacOSWindowOptions, o.mac_os_options = some m → m.value < 2 ^ 64

lemma MacOSWindowOptions.eq_of_value_eq {a b : MacOSWindowOptions}
    (h : a.value = b.value) : a = b := by
  cases a
  cases b
  simpa using h

lemma Toggle.apply_value (t : Toggle) (o : MacOSWindowOptions) (b : Bool) :
    (t.apply o b).value = toggleBit o.value t.bit b := by
  cases t <;> cases b <;> rfl

lemma Toggle.bit_lt (t : Toggle) : t.bit < 64 := by
  cases t <;> decide

lemma testBit_toggleBit (v k j : Nat) (b : Bool) (hk : k < 64) (hv : v < 2 ^ 64) :
    (toggleBit v k b).testBit j = if j = k then b else v.testBit j := by
  unfold toggleBit u64Not
  rw [Nat.one_shiftLeft]
  by_cases hj : j = k
  · subst hj
    cases b
    · simp only [Bool.false_eq_true, if_false]
      rw [Nat.testBit_and, Nat.testBit_xor, Nat.testBit_two_pow_sub_one,
        Nat.testBit_two_pow_self, decide_eq_true hk]
      simp
    · simp [Nat.testBit_two_pow_self]
  · cases b
    · simp only [Bool.false_eq_true, if_false, Nat.testBit_and, Nat.testBit_xor,
        Nat.testBit_two_pow_sub_one, if_neg hj]
      rcases Nat.lt_or_ge j 64 with hlt | hge
      · simp [hlt, Nat.testBit_two_pow_of_ne (fun h => hj h.symm)]
      · have hvj : v.testBit j = false :=
          Nat.testBit_lt_two_pow
            (Nat.lt_of_lt_of_le hv (Nat.pow_le_pow_right (by omega) hge))
        simp [hvj]
    · simp [if_neg hj, Nat.testBit_two_pow_of_ne (fun h => hj h.symm)]

lemma toggleBit_lt (v k : Nat) (b : Bool) (hk : k < 64) (hv : v < 2 ^ 64) :
    toggleBit v k b < 2 ^ 64 := by
  unfold toggleBit u64Not
  rw [Nat.one_shiftLeft]
  cases b
  · simp only [Bool.false_eq_true, if_false]
    exact Nat.and_lt_two_pow v
      (Nat.xor_lt_two_pow (by omega) (Nat.pow_lt_pow_right (by omega) hk))
  · simp only [if_true]
    exact Nat.or_lt_two_pow hv (Nat.pow_lt_pow_right (by omega) hk)

/-- C1 counterexample: starting from the bit-set `1` (closable set),
`closable(true)` then `closable(false)` yields `0`, not the original `1`,
so the claimed involution fails as stated. -/
theorem C1_involution_counterexample :
    ¬ (((MacOSWindowOptions.mk 1).closable true).closable false = MacOSWindowOptions.mk 1) := by
  decide

/-- C1 (amended): for every toggle method `t`, boolean `b` and in-range starting
bit-set, applying `t b` and then `t (not b)` yields the same bit-set as a single
application of `t (not b)` to the original; the original is restored exactly
when its `t`-bit already equalled `not b`, not in general. -/
theorem C1_toggle_then_inverse (t : Toggle) (o : MacOSWindowOptions) (b : Bool)
    (h : o.value < 2 ^ 64) :
    t.apply (t.apply o b) (!b) = t.apply o (!b) := by
  apply MacOSWindowOptions.eq_of_value_eq
  rw [Toggle.apply_value, Toggle.apply_value, Toggle.apply_value]
  apply Nat.eq_of_testBit_eq
  intro j
  rw [testBit_toggleBit (toggleBit o.value t.bit b) t.bit j (!b) t.bit_lt
      (toggleBit_lt o.value t.bit b t.bit_lt h),
    testBit_toggleBit o.value t.bit j b t.bit_lt h,
    testBit_toggleBit o.value t.bit j (!b) t.bit_lt h]
  by_cases hj : j = t.bit <;> simp [hj]

/-- C1 witness for the amended theorem, at `t = closable`, starting value `1`,
`b = true`. -/
theorem C1_toggle_then_inverse_witness :
    (MacOSWindowOptions.mk 1).value < 2 ^ 64 ∧
      Toggle.closable.apply (Toggle.closable.apply (MacOSWindowOptions.mk 1) true) (!true) =
        Toggle.closable.apply (MacOSWindowOptions.mk 1) (!true) :=
  ⟨by decide, C1_toggle_then_inverse Toggle.closable (MacOSWindowOptions.mk 1) true (by decide)⟩

/-- C2: the default `MacOSWindowOptions` bit-set fits in 64 bits and has exactly
bits 0 (closable), 1 (titled) and 2 (miniaturizable) set. -/
theorem C2_default_flag_bits :
    MacOSWindowOptions.default.value < 2 ^ 64 ∧
      ∀ j : Nat, MacOSWindowOptions.default.value.testBit j = decide (j < 3) := by
  have h7 : MacOSWindowOptions.default.value = 2 ^ 3 - 1 := by decide
  refine ⟨?_, ?_⟩
  · rw [h7]
    decide
  · intro j
    rw [h7, Nat.testBit_two_pow_sub_one]

/-- C3: `borderless` always yields the all-zero bit-set; it is idempotent and
its result does not depend on the prior state. -/
theorem C3_borderless_zero :
    (∀ o : MacOSWindowOptions, (o.borderless).value = 0) ∧
      (∀ o : MacOSWindowOptions, o.borderless.borderless = o.borderless) ∧
        (∀ o p : MacOSWindowOptions, o.borderless = p.borderless) :=
  ⟨fun _ => rfl, fun _ => rfl, fun _ _ => rfl⟩

/-- C4: each toggle method sets (on `true`) or clears (on `false`) exactly its
documented bit — closable 0, titled 1, miniaturizable 2, resizable 3,
textured 8, unified_titlebar 12, full_screen 14, full_size 15 — and leaves
every other bit unchanged, for every in-range starting value. -/
theorem C4_toggle_frame :
    (∀ (o : MacOSWindowOptions) (b : Bool) (j : Nat), o.value < 2 ^ 64 →
      (o.closable b).value.testBit j = if j = 0 then b else o.value.testBit j)
  ∧ (∀ (o : MacOSWindowOptions) (b : Bool) (j : Nat), o.value < 2 ^ 64 →
      (o.titled b).value.testBit j = if j = 1 then b else o.value.testBit j)
  ∧ (∀ (o : MacOSWindowOptions) (b : Bool) (j : Nat), o.value < 2 ^ 64 →
      (o.miniaturizable b).value.testBit j = if j = 2 then b else o.value.testBit j)
  ∧ (∀ (o : MacOSWindowOptions) (b : Bool) (j : Nat), o.value < 2 ^ 64 →
      (o.resizable b).value.testBit j = if j = 3 then b else o.value.testBit j)
  ∧ (∀ (o : MacOSWindowOptions) (b : Bool) (j : Nat), o.value < 2 ^ 64 →
      (o.textured b).value.testBit j = if j = 8 then b else o.value.testBit j)
  ∧ (∀ (o : MacOSWindowOptions) (b : Bool) (j : Nat), o.value < 2 ^ 64 →
      (o.unified_titlebar b).value.testBit j = if j = 12 then b else o.value.testBit j)
  ∧ (∀ (o : MacOSWindowOptions) (b : Bool) (j : Nat), o.value < 2 ^ 64 →
      (o.full_screen b).value.testBit j = if j = 14 then b else o.value.testBit j)
  ∧ (∀ (o : MacOSWindowOptions) (b : Bool) (j : Nat), o.value < 2 ^ 64 →
      (o.full_size b).value.testBit j = if j = 15 then b else o.value.testBit j) := by
  refine ⟨?_, ?_, ?_, ?_, ?_, ?_, ?_, ?_⟩ <;> intro o b j h
  · show (Toggle.closable.apply o b).value.testBit j = if j = 0 then b else o.value.testBit j
    rw [Toggle.apply_value]
    exact testBit_toggleBit o.value 0 j b (by omega) h
  · show (Toggle.titled.apply o b).value.testBit j = if j = 1 then b else o.value.testBit j
    rw [Toggle.apply_value]
    exact testBit_toggleBit o.value 1 j b (by omega) h
  · show (Toggle.miniaturizable.apply o b).value.testBit j = if j = 2 then b else o.value.testBit j
    rw [Toggle.apply_value]
    exact testBit_toggleBit o.value 2 j b (by omega) h
  · show (Toggle.resizable.apply o b).value.testBit j = if j = 3 then b else o.value.testBit j
    rw [Toggle.apply_value]
    exact testBit_toggleBit o.value 3 j b (by omega) h
  · show (Toggle.textured.apply o b).value.testBit j = if j = 8 then b else o.value.testBit j
    rw [Toggle.apply_value]
    exact testBit_toggleBit o.value 8 j b (by omega) h
  · show (Toggle.unified_titlebar.apply o b).value.testBit j = if j = 12 then b else o.value.testBit j
    rw [Toggle.apply_value]
    exact testBit_toggleBit o.value 12 j b (by omega) h
  · show (Toggle.full_screen.apply o b).value.testBit j = if j = 14 then b else o.value.testBit j
    rw [Toggle.apply_value]
    exact testBit_toggleBit o.value 14 j b (by omega) h
  · show (Toggle.full_size.apply o b).value.testBit j = if j = 15 then b else o.value.testBit j
    rw [Toggle.apply_value]
    exact testBit_toggleBit o.value 15 j b (by omega) h

/-- C4 witness: `closable true` on the bit-set `2`, observed at bit 1. -/
theorem C4_toggle_frame_witness :
    (MacOSWindowOptions.mk 2).value < 2 ^ 64 ∧
      ((MacOSWindowOptions.mk 2).closable true).value.testBit 1 =
        if 1 = 0 then true else (MacOSWindowOptions.mk 2).value.testBit 1 :=
  ⟨by decide, C4_toggle_frame.1 (MacOSWindowOptions.mk 2) true 1 (by decide)⟩

/-- C5: toggles with distinct bit positions commute for every in-range starting
value; in particular `resizable(true).textured(true)` equals
`textured(true).resizable(true)`. -/
theorem C5_toggle_comm :
    (∀ t₁ t₂ : Toggle, t₁.bit ≠ t₂.bit → ∀ (o : MacOSWindowOptions) (b₁ b₂ : Bool),
      o.value < 2 ^ 64 → t₂.apply (t₁.apply o b₁) b₂ = t₁.apply (t₂.apply o b₂) b₁)
  ∧ (∀ o : MacOSWindowOptions, o.value < 2 ^ 64 →
      (o.resizable true).textured true = (o.textured true).resizable true) := by
  have main : ∀ t₁ t₂ : Toggle, t₁.bit ≠ t₂.bit → ∀ (o : MacOSWindowOptions) (b₁ b₂ : Bool),
      o.value < 2 ^ 64 → t₂.apply (t₁.apply o b₁) b₂ = t₁.apply (t₂.apply o b₂) b₁ := by
    intro t₁ t₂ hne o b₁ b₂ h
    apply MacOSWindowOptions.eq_of_value_eq
    rw [Toggle.apply_value, Toggle.apply_value, Toggle.apply_value, Toggle.apply_value]
    apply Nat.eq_of_testBit_eq
    intro j
    rw [testBit_toggleBit (toggleBit o.value t₁.bit b₁) t₂.bit j b₂ t₂.bit_lt
        (toggleBit_lt o.value t₁.bit b₁ t₁.bit_lt h),
      testBit_toggleBit o.value t₁.bit j b₁ t₁.bit_lt h,
      testBit_toggleBit (toggleBit o.value t₂.bit b₂) t₁.bit j b₁ t₁.bit_lt
        (toggleBit_lt o.value t₂.bit b₂ t₂.bit_lt h),
      testBit_toggleBit o.value t₂.bit j b₂ t₂.bit_lt h]
    by_cases h1 : j = t₁.bit <;> by_cases h2 : j = t₂.bit
    · exact absurd (h1.symm.trans h2) hne
    · simp [h1, h2, hne]
    · simp [h1, h2, Ne.symm hne]
    · simp [h1, h2]
  exact ⟨main, fun o h => main Toggle.resizable Toggle.textured (by decide) o true true h⟩

/-- C5 witness: `resizable` and `textured` commute on the bit-set `3`. -/
theorem C5_toggle_comm_witness :
    Toggle.resizable.bit ≠ Toggle.textured.bit ∧ (MacOSWindowOptions.mk 3).value < 2 ^ 64 ∧
      Toggle.textured.apply (Toggle.resizable.apply (MacOSWindowOptions.mk 3) true) false =
        Toggle.resizable.apply (Toggle.textured.apply (MacOSWindowOptions.mk 3) false) true :=
  ⟨by decide, by decide,
    C5_toggle_comm.1 Toggle.resizable Toggle.textured (by decide) (MacOSWindowOptions.mk 3)
      true false (by decide)⟩

/-- C6: `WindowOpenOptions::default()` has title `"Baseview window"`, size
`800 × 600`, the system scale policy, and no mac-os options. -/
theorem C6_default_window_open_options :
    WindowOpenOptions.default.title = "Baseview window" ∧
      WindowOpenOptions.default.size.width = 800.0 ∧
      WindowOpenOptions.default.size.height = 600.0 ∧
      WindowOpenOptions.default.scale = WindowScalePolicy.SystemScaleFactor ∧
      WindowOpenOptions.default.mac_os_options = none :=
  ⟨rfl, rfl, rfl, rfl, rfl⟩

/-- C7: calling `with_mac_os_options f` on options whose `mac_os_options` is
`none` is the same as first setting the field to `some default` and then
calling `with_mac_os_options f`. -/
theorem C7_with_mac_os_options_defaults_absent (o : WindowOpenOptions)
    (f : MacOSWindowOptions → MacOSWindowOptions) (h : o.mac_os_options = none) :
    o.with_mac_os_options f =
      ({ o with mac_os_options := some MacOSWindowOptions.default }).with_mac_os_options f := by
  simp [WindowOpenOptions.with_mac_os_options, h]

/-- C7 witness at the default options (whose `mac_os_options` is `none`) and
the identity transform. -/
theorem C7_with_mac_os_options_defaults_absent_witness :
    WindowOpenOptions.default.mac_os_options = none ∧
      WindowOpenOptions.default.with_mac_os_options id =
        ({ WindowOpenOptions.default with
            mac_os_options := some MacOSWindowOptions.default }).with_mac_os_options id :=
  ⟨rfl, C7_with_mac_os_options_defaults_absent WindowOpenOptions.default id rfl⟩

/-- C8: totality of every operation, as visible in the embedding — the panic
sources a `u64` bit-set implementation could have are out-of-range shifts and
values escaping the 64-bit range, and neither occurs: every toggle's bit
position is below 64, every flag operation and the default stay within
`2 ^ 64`, and every builder preserves well-formedness of the stored options. -/
theorem C8_totality :
    (∀ t : Toggle, t.bit < 64)
  ∧ (∀ (t : Toggle) (o : MacOSWindowOptions) (b : Bool),
      o.value < 2 ^ 64 → (t.apply o b).value < 2 ^ 64)
  ∧ (∀ o : MacOSWindowOptions, (o.borderless).value < 2 ^ 64)
  ∧ MacOSWindowOptions.default.value < 2 ^ 64
  ∧ (∀ (o : WindowOpenOptions) (f : MacOSWindowOptions → MacOSWindowOptions),
      (∀ m : MacOSWindowOptions, m.value < 2 ^ 64 → (f m).value < 2 ^ 64) →
      WFOptions o → WFOptions (o.with_mac_os_options f))
  ∧ WFOptions WindowOpenOptions.default
  ∧ (∀ (o : WindowOpenOptions) (s : String), WFOptions o → WFOptions (o.with_title s))
  ∧ (∀ (o : WindowOpenOptions) (s : Size), WFOptions o → WFOptions (o.with_size s))
  ∧ (∀ (o : WindowOpenOptions) (p : WindowScalePolicy),
      WFOptions o → WFOptions (o.with_scale_policy p)) := by
  refine ⟨Toggle.bit_lt, ?_, ?_, ?_, ?_, ?_, ?_, ?_, ?_⟩
  · intro t o b h
    rw [Toggle.apply_value]
    exact toggleBit_lt o.value t.bit b t.bit_lt h
  · intro o
    exact (by decide : (0 : Nat) < 2 ^ 64)
  · decide
  · intro o f hf ho m hm
    have hm2 : m = f (o.mac_os_options.getD MacOSWindowOptions.default) := by
      simpa [WindowOpenOptions.with_mac_os_options] using hm.symm
    subst hm2
    apply hf
    cases hmac : o.mac_os_options with
    | none => decide
    | some x => exact ho x hmac
  · intro m hm
    simp [WindowOpenOptions.default] at hm
  · intro o s ho m hm
    exact ho m hm
  · intro o s ho m hm
    exact ho m hm
  · intro o p ho m hm
    exact ho m hm

/-- C8 witness: the toggle-range conjunct at `titled`, starting value `9`. -/
theorem C8_totality_witness :
    (MacOSWindowOptions.mk 9).value < 2 ^ 64 ∧
      (Toggle.titled.apply (MacOSWindowOptions.mk 9) false).value < 2 ^ 64 :=
  ⟨by decide, C8_totality.2.1 Toggle.titled (MacOSWindowOptions.mk 9) false (by decide)⟩

/-- C9: after `with_mac_os_options f`, the `mac_os_options` field is always
`some`, for every transform and every prior state of the field. -/
theorem C9_with_mac_os_options_isSome (o : WindowOpenOptions)
    (f : MacOSWindowOptions → MacOSWindowOptions) :
    (o.with_mac_os_options f).mac_os_options.isSome = true :=
  rfl

/-- C10: every toggle method is idempotent — applying it twice with the same
boolean yields the same bit-set as applying it once, for every in-range
starting value. -/
theorem C10_toggle_idempotent (t : Toggle) (o : MacOSWindowOptions) (b : Bool)
    (h : o.value < 2 ^ 64) :
    t.apply (t.apply o b) b = t.apply o b := by
  apply MacOSWindowOptions.eq_of_value_eq
  rw [Toggle.apply_value, Toggle.apply_value]
  apply Nat.eq_of_testBit_eq
  intro j
  rw [testBit_toggleBit (toggleBit o.value t.bit b) t.bit j b t.bit_lt
      (toggleBit_lt o.value t.bit b t.bit_lt h),
    testBit_toggleBit o.value t.bit j b t.bit_lt h]
  by_cases hj : j = t.bit <;> simp [hj]

/-- C10 witness at `full_screen`, starting value `6`, `b = true`. -/
theorem C10_toggle_idempotent_witness :
    (MacOSWindowOptions.mk 6).value < 2 ^ 64 ∧
      Toggle.full_screen.apply (Toggle.full_screen.apply (MacOSWindowOptions.mk 6) true) true =
        Toggle.full_screen.apply (MacOSWindowOptions.mk 6) true :=
  ⟨by decide, C10_toggle_idempotent Toggle.full_screen (MacOSWindowOptions.mk 6) true (by decide)⟩

end Baseview
